import Mathlib

/-!
Shallow embedding of the audio-policy device catalog
(`DeviceDescriptor.cpp`): the `DeviceDescriptor` record and the
`DeviceVector` sorted collection, with the operations exercised by the
verified properties.  Machine integers (`audio_devices_t`,
`audio_format_t`, `audio_port_handle_t`) are modelled as `Nat` bitmasks;
smart pointers `sp<DeviceDescriptor>` as `Option DeviceDescriptor` where
nullability matters.
-/

namespace AudioPolicy

/-- `audio_devices_t` sentinel: no device. -/
def AUDIO_DEVICE_NONE : Nat := 0

/-- Direction discriminant bit of `audio_devices_t` (input devices). -/
def AUDIO_DEVICE_BIT_IN : Nat := 0x80000000

/-- Built-in speaker output role bit. -/
def AUDIO_DEVICE_OUT_SPEAKER : Nat := 0x2

/-- HDMI output role bit. -/
def AUDIO_DEVICE_OUT_HDMI : Nat := 0x400

/-- `audio_format_t` sentinel: default / unspecified format. -/
def AUDIO_FORMAT_DEFAULT : Nat := 0

/-- AC3 compressed format identifier. -/
def AUDIO_FORMAT_AC3 : Nat := 0x09000000

/-- IEC61937 compressed format identifier. -/
def AUDIO_FORMAT_IEC61937 : Nat := 0x0D000000

/-- `audio_port_handle_t` sentinel: unattached device. -/
def AUDIO_PORT_HANDLE_NONE : Nat := 0

/-- `audio_is_output_devices(device)`: a mask denotes output devices iff
the input direction bit is clear. -/
def audio_is_output_devices (d : Nat) : Bool := d &&& AUDIO_DEVICE_BIT_IN == 0

/-- `type &= ~AUDIO_DEVICE_BIT_IN` on the 32-bit `audio_devices_t`. -/
def stripBitIn (d : Nat) : Nat := d &&& 0x7FFFFFFF

/-- One device record (`DeviceDescriptor`, including the
`DeviceDescriptorBase` fields it uses).  `ptrOrd` models the object
identity (the memory address of the heap object) that
`SortedVector::do_compare`'s default falls back to; it takes part in no
other operation. -/
structure DeviceDescriptor where
  mDeviceType : Nat
  mAddress : String
  mEncodedFormats : List Nat
  mCurrentEncodedFormat : Nat
  mId : Nat
  mTagName : String
  mModuleHandle : Nat
  ptrOrd : Nat
deriving DecidableEq, Repr

/-- The two-argument constructor
`DeviceDescriptor(type, encodedFormats, tagName)`: current encoded format
starts at the sentinel, and an HDMI output declared with no encoded
formats receives the compatibility fallback `{AC3, IEC61937}`.  The
`ptrOrd` argument stands for the fresh object's identity. -/
def DeviceDescriptor.make (ty : Nat) (encodedFormats : List Nat) (tagName : String)
    (ptrOrd : Nat) : DeviceDescriptor :=
  { mDeviceType := ty
    mAddress := ""
    mEncodedFormats :=
      if ty == AUDIO_DEVICE_OUT_HDMI && encodedFormats.isEmpty then
        [AUDIO_FORMAT_AC3, AUDIO_FORMAT_IEC61937]
      else encodedFormats
    mCurrentEncodedFormat := AUDIO_FORMAT_DEFAULT
    mId := AUDIO_PORT_HANDLE_NONE
    mTagName := tagName
    mModuleHandle := 0
    ptrOrd := ptrOrd }

/-- `checkEqual(f1, f2)`: compares the two format vectors as `std::set`s,
i.e. as sets of elements. -/
def checkEqual (f1 f2 : List Nat) : Bool :=
  f1.all f2.contains && f2.all f1.contains

/-- `DeviceDescriptor::equals(other)`: a null `other` is never equal;
otherwise same type, same address, and set-equal encoded formats. -/
def DeviceDescriptor.equals (self : DeviceDescriptor)
    (other : Option DeviceDescriptor) : Bool :=
  match other with
  | none => false
  | some o =>
      self.mDeviceType == o.mDeviceType && self.mAddress == o.mAddress &&
        checkEqual self.mEncodedFormats o.mEncodedFormats

/-- `DeviceDescriptor::supportsFormat(format)`: an empty declared-format
list means no restriction. -/
def DeviceDescriptor.supportsFormat (d : DeviceDescriptor) (format : Nat) : Bool :=
  if d.mEncodedFormats.isEmpty then true else d.mEncodedFormats.contains format

/-- Modelled from the spec: the helper `device_has_encoding_capability`
used by `hasCurrentEncodedFormat` lives in a policy header that is not
part of the sources here.  Per the spec it holds exactly for roles in the
digital multi-format output category, of which HDMI output is the one
this development exercises. -/
def device_has_encoding_capability (ty : Nat) : Bool :=
  audio_is_output_devices ty && (ty &&& AUDIO_DEVICE_OUT_HDMI != 0)

/-- `DeviceDescriptor::hasCurrentEncodedFormat()`. -/
def DeviceDescriptor.hasCurrentEncodedFormat (d : DeviceDescriptor) : Bool :=
  if !device_has_encoding_capability d.mDeviceType then true
  else if d.mEncodedFormats.isEmpty then true
  else d.mCurrentEncodedFormat != AUDIO_FORMAT_DEFAULT

/-- `strictly_order_type` (the `<` indicator used by
`DeviceVector::do_compare`), as the 0/1 integer the source subtracts. -/
def strictly_order_type {α : Type} [LT α] [DecidableRel ((· < ·) : α → α → Prop)]
    (a b : α) : Int :=
  if a < b then 1 else 0

/-- `DeviceVector::do_compare`: type, then id (latest first), then
address, then the `SortedVector` default (object identity). -/
def do_compare (l r : DeviceDescriptor) : Int :=
  let ltype := l.mDeviceType
  let rtype := r.mDeviceType
  let laddr := l.mAddress
  let raddr := r.mAddress
  let lId := l.mId
  let rId := r.mId
  if ltype != rtype then
    strictly_order_type rtype ltype - strictly_order_type ltype rtype
  else if (lId != 0 || rId != 0) && lId != rId then
    strictly_order_type lId rId - strictly_order_type rId lId
  else if (laddr != "" || raddr != "") && laddr != raddr then
    strictly_order_type laddr raddr - strictly_order_type raddr laddr
  else
    if l.ptrOrd < r.ptrOrd then -1 else if r.ptrOrd < l.ptrOrd then 1 else 0

/-- The device collection (`DeviceVector`): the underlying
`SortedVector` contents plus the cached aggregate type mask. -/
structure DeviceVector where
  devices : List DeviceDescriptor
  mDeviceTypes : Nat
deriving DecidableEq, Repr

/-- `DeviceVector()`: empty, with the aggregate mask at `AUDIO_DEVICE_NONE`. -/
def emptyDV : DeviceVector := { devices := [], mDeviceTypes := AUDIO_DEVICE_NONE }

/-- Bitwise-OR of the members' types, as computed by `refreshTypes`. -/
def typesOf (l : List DeviceDescriptor) : Nat :=
  l.foldl (fun acc d => acc ||| d.mDeviceType) AUDIO_DEVICE_NONE

/-- `DeviceVector::refreshTypes()`. -/
def DeviceVector.refreshTypes (dv : DeviceVector) : DeviceVector :=
  { dv with mDeviceTypes := typesOf dv.devices }

/-- Index of the first member `equals` to `item`, or `none`: the loop
inside `DeviceVector::indexOf`. -/
def findEqIdx (item : DeviceDescriptor) : List DeviceDescriptor → Option Nat
  | [] => none
  | d :: rest =>
      if d.equals (some item) then some 0 else (findEqIdx item rest).map (· + 1)

/-- `DeviceVector::indexOf(item)`: position of the first `equals` member,
`-1` when absent. -/
def DeviceVector.indexOf (dv : DeviceVector) (item : DeviceDescriptor) : Int :=
  match findEqIdx item dv.devices with
  | some i => Int.ofNat i
  | none => -1

/-- `SortedVector::add`'s insertion: place `item` before the first member
comparing greater; on an exact comparator hit, `VectorImpl` replaces the
member that is there. -/
def sortedInsert (item : DeviceDescriptor) :
    List DeviceDescriptor → List DeviceDescriptor
  | [] => [item]
  | e :: rest =>
      if do_compare e item > 0 then item :: e :: rest
      else if do_compare e item == 0 then item :: rest
      else e :: sortedInsert item rest

/-- The index at which `sortedInsert` places `item` (the value
`SortedVector::add` returns). -/
def sortedInsertPos (item : DeviceDescriptor) : List DeviceDescriptor → Nat
  | [] => 0
  | e :: rest =>
      if do_compare e item > 0 then 0
      else if do_compare e item == 0 then 0
      else sortedInsertPos item rest + 1

/-- `DeviceVector::add(item)` (single-record): reject when an `equals`
member exists (returning `-1`), otherwise insert in sort order and
refresh the aggregate mask, returning the insertion index. -/
def DeviceVector.addOne (dv : DeviceVector) (item : DeviceDescriptor) :
    DeviceVector × Int :=
  let ret := dv.indexOf item
  if ret < 0 then
    (DeviceVector.refreshTypes { dv with devices := sortedInsert item dv.devices },
      Int.ofNat (sortedInsertPos item dv.devices))
  else (dv, -1)

/-- The loop body of bulk `add`: insert `device` into the running
collection when no `equals` member is present yet, recording in the flag
that something was added. -/
def addStep (acc : DeviceVector × Bool) (device : DeviceDescriptor) :
    DeviceVector × Bool :=
  if acc.1.indexOf device < 0 then
    ({ acc.1 with devices := sortedInsert device acc.1.devices }, true)
  else acc

/-- `DeviceVector::add(const DeviceVector&)` (bulk): insert every record
with no `equals` member already present; refresh the mask once at the
end, and only if something was inserted. -/
def DeviceVector.addAll (dv : DeviceVector) (devices : DeviceVector) : DeviceVector :=
  let r := devices.devices.foldl addStep (dv, false)
  if r.2 then r.1.refreshTypes else r.1

/-- `DeviceVector::remove(item)` (single-record): `-1` and no change when
no `equals` member exists; otherwise remove it and refresh the mask. -/
def DeviceVector.removeOne (dv : DeviceVector) (item : DeviceDescriptor) :
    DeviceVector × Int :=
  let ret := dv.indexOf item
  if ret < 0 then (dv, ret)
  else
    (DeviceVector.refreshTypes
      { dv with devices := dv.devices.eraseIdx ret.toNat }, ret)

/-- The loop body of bulk `remove`: one single-record removal. -/
def rmStep (acc : DeviceVector) (device : DeviceDescriptor) : DeviceVector :=
  (acc.removeOne device).1

/-- `DeviceVector::remove(const DeviceVector&)` (bulk): member-by-member
single-record removal. -/
def DeviceVector.removeAll (dv : DeviceVector) (devices : DeviceVector) : DeviceVector :=
  devices.devices.foldl rmStep dv

/-- The loop of `DeviceVector::getDevice`: `device` is the running result
variable; an exact member-address match breaks out of the loop. -/
def getDeviceLoop (ty : Nat) (address : String) (format : Nat) :
    List DeviceDescriptor → Option DeviceDescriptor → Option DeviceDescriptor
  | [], device => device
  | d :: rest, device =>
      if d.mDeviceType == ty then
        if ((address == "" || d.mAddress == address) && format == AUDIO_FORMAT_DEFAULT)
            || (d.supportsFormat format && format != AUDIO_FORMAT_DEFAULT) then
          if d.mAddress == address then some d
          else getDeviceLoop ty address format rest (some d)
        else getDeviceLoop ty address format rest device
      else getDeviceLoop ty address format rest device

/-- `DeviceVector::getDevice(type, address, format)`. -/
def DeviceVector.getDevice (dv : DeviceVector) (ty : Nat) (address : String)
    (format : Nat) : Option DeviceDescriptor :=
  getDeviceLoop ty address format dv.devices none

/-- The loop body of `getDevicesFromTypeMask`: keep `d` when its
direction agrees with the query's and the stripped masks intersect. -/
def tmStep (isOutput : Bool) (ty2 : Nat) (acc : DeviceVector)
    (d : DeviceDescriptor) : DeviceVector :=
  if (audio_is_output_devices d.mDeviceType == isOutput)
      && (ty2 &&& stripBitIn d.mDeviceType != 0) then
    (acc.addOne d).1
  else acc

/-- `DeviceVector::getDevicesFromTypeMask(type)`: strip the direction bit
from both sides, require equal direction and intersecting stripped masks;
a query mask stripping to `AUDIO_DEVICE_NONE` skips the loop entirely. -/
def DeviceVector.getDevicesFromTypeMask (dv : DeviceVector) (ty : Nat) : DeviceVector :=
  let isOutput := audio_is_output_devices ty
  let ty2 := stripBitIn ty
  if ty2 == AUDIO_DEVICE_NONE then emptyDV
  else dv.devices.foldl (tmStep isOutput ty2) emptyDV

/-- `DeviceVector::getFirstExistingDevice(orderedTypes)`: first non-null
`getDevice(type, "", AUDIO_FORMAT_DEFAULT)` along the preference order. -/
def DeviceVector.getFirstExistingDevice (dv : DeviceVector) :
    List Nat → Option DeviceDescriptor
  | [] => none
  | ty :: rest =>
      match dv.getDevice ty "" AUDIO_FORMAT_DEFAULT with
      | some d => some d
      | none => dv.getFirstExistingDevice rest

/-- `DeviceVector::replaceDevicesByType(typeToRemove, devicesToAdd)`. -/
def DeviceVector.replaceDevicesByType (dv : DeviceVector) (typeToRemove : Nat)
    (devicesToAdd : DeviceVector) : DeviceVector :=
  let devicesToRemove := dv.getDevicesFromTypeMask typeToRemove
  if !devicesToRemove.devices.isEmpty && !devicesToAdd.devices.isEmpty then
    (dv.removeAll devicesToRemove).addAll devicesToAdd
  else dv

/-- Modelled from the spec: `contains` is declared inline in the
collection header (absent from these sources); per the spec, membership
is by the identity predicate, i.e. `indexOf(item) >= 0`. -/
def DeviceVector.containsDev (dv : DeviceVector) (item : DeviceDescriptor) : Bool :=
  dv.indexOf item >= 0

/-- `DeviceVector::filter(devices)`: members of `dv` that `devices`
contains, accumulated with single-record `add`. -/
def DeviceVector.filterDV (dv : DeviceVector) (devices : DeviceVector) : DeviceVector :=
  dv.devices.foldl
    (fun acc device => if devices.containsDev device then (acc.addOne device).1 else acc)
    emptyDV

/-- Single-record `add` instrumented with the number of `refreshTypes`
invocations it performs. -/
def DeviceVector.addOneC (dv : DeviceVector) (item : DeviceDescriptor) :
    DeviceVector × Nat :=
  if dv.indexOf item < 0 then
    (DeviceVector.refreshTypes { dv with devices := sortedInsert item dv.devices }, 1)
  else (dv, 0)

/-- Bulk `add` instrumented with the number of `refreshTypes` invocations. -/
def DeviceVector.addAllC (dv : DeviceVector) (devices : DeviceVector) :
    DeviceVector × Nat :=
  let r := devices.devices.foldl addStep (dv, false)
  if r.2 then (r.1.refreshTypes, 1) else (r.1, 0)

/-- Single-record `remove` instrumented with the number of `refreshTypes`
invocations it performs. -/
def DeviceVector.removeOneC (dv : DeviceVector) (item : DeviceDescriptor) :
    DeviceVector × Nat :=
  let ret := dv.indexOf item
  if ret < 0 then (dv, 0)
  else
    (DeviceVector.refreshTypes
      { dv with devices := dv.devices.eraseIdx ret.toNat }, 1)

/-- The loop body of the instrumented bulk `remove`. -/
def rmStepC (acc : DeviceVector × Nat) (device : DeviceDescriptor) :
    DeviceVector × Nat :=
  let s := acc.1.removeOneC device
  (s.1, acc.2 + s.2)

/-- Bulk `remove` instrumented with the total number of `refreshTypes`
invocations across its member-by-member single removals. -/
def DeviceVector.removeAllC (dv : DeviceVector) (devices : DeviceVector) :
    DeviceVector × Nat :=
  devices.devices.foldl rmStepC (dv, 0)

/-- The aggregate-mask cache is in sync with the membership. -/
abbrev maskOk (dv : DeviceVector) : Prop := dv.mDeviceTypes = typesOf dv.devices

/-- Collections reachable from the empty collection by the four mutating
operations (single and bulk add and remove). -/
inductive Reachable : DeviceVector → Prop
  | empty : Reachable emptyDV
  | addOne {dv} (d : DeviceDescriptor) : Reachable dv → Reachable (dv.addOne d).1
  | addAll {dv} (ds : DeviceVector) : Reachable dv → Reachable (dv.addAll ds)
  | removeOne {dv} (d : DeviceDescriptor) : Reachable dv → Reachable (dv.removeOne d).1
  | removeAll {dv} (ds : DeviceVector) : Reachable dv → Reachable (dv.removeAll ds)

/-- No two members are identity-equal (the collection invariant). -/
abbrev NoDupEquals (l : List DeviceDescriptor) : Prop :=
  l.Pairwise (fun a b => a.equals (some b) = false)

/-- Members carry pairwise distinct object identities (distinct heap
objects have distinct addresses). -/
abbrev DistinctPtrs (l : List DeviceDescriptor) : Prop :=
  l.Pairwise (fun a b => a.ptrOrd ≠ b.ptrOrd)

/-- The qualification test of the `getDevice` search, as one predicate:
the member's type matches, and either (default format) the query address
is empty or matched exactly, or (non-default format) the member supports
the format. -/
def qualifiesQ (ty : Nat) (address : String) (format : Nat)
    (d : DeviceDescriptor) : Bool :=
  d.mDeviceType == ty &&
    (((address == "" || d.mAddress == address) && format == AUDIO_FORMAT_DEFAULT)
      || (d.supportsFormat format && format != AUDIO_FORMAT_DEFAULT))

/-- Spec-side description of `getDevice` (the amended claim): the first
qualifying member whose address equals the query address exactly; when
none matches exactly, the last qualifying member in sort order; `none`
when no member qualifies. -/
def getDeviceSpec (dv : DeviceVector) (ty : Nat) (address : String)
    (format : Nat) : Option DeviceDescriptor :=
  let qs := dv.devices.filter (qualifiesQ ty address format)
  match qs.find? (fun d => d.mAddress == address) with
  | some d => some d
  | none => qs.getLast?

/-- Running-accumulator form of the `getDevice` selection, used to state
the loop characterization: the first exact-address qualifier, else the
last qualifier, else the accumulator. -/
def specSelect (qs : List DeviceDescriptor) (address : String)
    (acc : Option DeviceDescriptor) : Option DeviceDescriptor :=
  match qs.find? (fun d => d.mAddress == address) with
  | some d => some d
  | none =>
    match qs.getLast? with
    | some d => some d
    | none => acc

/-- Scenario record: Speaker, empty address, id 5. -/
def dSpk5 : DeviceDescriptor :=
  { mDeviceType := AUDIO_DEVICE_OUT_SPEAKER, mAddress := "",
    mEncodedFormats := [], mCurrentEncodedFormat := AUDIO_FORMAT_DEFAULT,
    mId := 5, mTagName := "", mModuleHandle := 0, ptrOrd := 1 }

/-- Scenario record: Speaker, address "X", id 9 (attached later). -/
def dSpk9 : DeviceDescriptor :=
  { mDeviceType := AUDIO_DEVICE_OUT_SPEAKER, mAddress := "X",
    mEncodedFormats := [], mCurrentEncodedFormat := AUDIO_FORMAT_DEFAULT,
    mId := 9, mTagName := "", mModuleHandle := 0, ptrOrd := 2 }

/-- Scenario record identity-equal to `dSpk5` but attached with a
different id (and a distinct object). -/
def dSpk5dup : DeviceDescriptor :=
  { mDeviceType := AUDIO_DEVICE_OUT_SPEAKER, mAddress := "",
    mEncodedFormats := [], mCurrentEncodedFormat := AUDIO_FORMAT_DEFAULT,
    mId := 77, mTagName := "dup", mModuleHandle := 3, ptrOrd := 5 }

/-- The two-Speaker scenario collection: `dSpk5` added first, then
`dSpk9`; sorts as `[dSpk9, dSpk5]` (higher id first). -/
def dvScenario3 : DeviceVector := ((emptyDV.addOne dSpk5).1.addOne dSpk9).1

/-- Scenario record: HDMI output, address "A", declares AC3, id 1. -/
def dHdmiA : DeviceDescriptor :=
  { mDeviceType := AUDIO_DEVICE_OUT_HDMI, mAddress := "A",
    mEncodedFormats := [AUDIO_FORMAT_AC3],
    mCurrentEncodedFormat := AUDIO_FORMAT_DEFAULT,
    mId := 1, mTagName := "", mModuleHandle := 0, ptrOrd := 3 }

/-- Scenario record: HDMI output, address "B", declares AC3, id 2
(attached later, so it sorts first). -/
def dHdmiB : DeviceDescriptor :=
  { mDeviceType := AUDIO_DEVICE_OUT_HDMI, mAddress := "B",
    mEncodedFormats := [AUDIO_FORMAT_AC3],
    mCurrentEncodedFormat := AUDIO_FORMAT_DEFAULT,
    mId := 2, mTagName := "", mModuleHandle := 0, ptrOrd := 4 }

/-- The two-HDMI scenario collection: sorts as `[dHdmiB, dHdmiA]`. -/
def dvScenario2 : DeviceVector := ((emptyDV.addOne dHdmiA).1.addOne dHdmiB).1

theorem contains_true_iff (l : List Nat) (a : Nat) : l.contains a = true ↔ a ∈ l :=
  List.elem_iff

theorem checkEqual_true_iff (f g : List Nat) :
    checkEqual f g = true ↔ ∀ x : Nat, x ∈ f ↔ x ∈ g := by
  simp only [checkEqual, Bool.and_eq_true, List.all_eq_true, contains_true_iff]
  constructor
  · rintro ⟨h1, h2⟩ x
    exact ⟨fun hx => h1 x hx, fun hx => h2 x hx⟩
  · intro h
    exact ⟨fun x hx => (h x).1 hx, fun x hx => (h x).2 hx⟩

theorem equals_true_iff (a b : DeviceDescriptor) :
    a.equals (some b) = true ↔
      a.mDeviceType = b.mDeviceType ∧ a.mAddress = b.mAddress ∧
        ∀ x : Nat, x ∈ a.mEncodedFormats ↔ x ∈ b.mEncodedFormats := by
  simp only [DeviceDescriptor.equals, Bool.and_eq_true, beq_iff_eq,
    checkEqual_true_iff, and_assoc]

theorem equals_refl (a : DeviceDescriptor) : a.equals (some a) = true := by
  rw [equals_true_iff]
  exact ⟨rfl, rfl, fun x => Iff.rfl⟩

theorem equals_symmB (a b : DeviceDescriptor) :
    a.equals (some b) = b.equals (some a) := by
  by_cases h : a.equals (some b) = true
  · rw [h]
    symm
    rw [equals_true_iff] at h ⊢
    exact ⟨h.1.symm, h.2.1.symm, fun x => (h.2.2 x).symm⟩
  · have h2 : ¬ b.equals (some a) = true := by
      intro hb
      apply h
      rw [equals_true_iff] at hb ⊢
      exact ⟨hb.1.symm, hb.2.1.symm, fun x => (hb.2.2 x).symm⟩
    rw [Bool.not_eq_true] at h h2
    rw [h, h2]

theorem equals_symm_of {a b : DeviceDescriptor} (h : a.equals (some b) = true) :
    b.equals (some a) = true := by
  rw [← equals_symmB]
  exact h

theorem equals_trans {a b c : DeviceDescriptor} (h1 : a.equals (some b) = true)
    (h2 : b.equals (some c) = true) : a.equals (some c) = true := by
  rw [equals_true_iff] at h1 h2 ⊢
  exact ⟨h1.1.trans h2.1, h1.2.1.trans h2.2.1, fun x => (h1.2.2 x).trans (h2.2.2 x)⟩

theorem equals_congr {a b : DeviceDescriptor} (h : a.equals (some b) = true)
    (x : DeviceDescriptor) : x.equals (some a) = x.equals (some b) := by
  by_cases hx : x.equals (some a) = true
  · rw [hx]
    symm
    exact equals_trans hx h
  · have hx2 : ¬ x.equals (some b) = true := by
      intro hb
      exact hx (equals_trans hb (equals_symm_of h))
    rw [Bool.not_eq_true] at hx hx2
    rw [hx, hx2]

theorem findEqIdx_none_iff (item : DeviceDescriptor) (l : List DeviceDescriptor) :
    findEqIdx item l = none ↔ ∀ d ∈ l, d.equals (some item) = false := by
  induction l with
  | nil => simp [findEqIdx]
  | cons d rest ih =>
    by_cases h : d.equals (some item) = true
    · simp [findEqIdx, h]
    · rw [Bool.not_eq_true] at h
      simp [findEqIdx, h, ih]

theorem indexOf_neg_iff (dv : DeviceVector) (item : DeviceDescriptor) :
    dv.indexOf item < 0 ↔ ∀ d ∈ dv.devices, d.equals (some item) = false := by
  cases h : findEqIdx item dv.devices with
  | none =>
    have hidx : dv.indexOf item = -1 := by simp [DeviceVector.indexOf, h]
    rw [hidx]
    constructor
    · intro _
      exact (findEqIdx_none_iff item dv.devices).1 h
    · intro _
      norm_num
  | some i =>
    have hidx : dv.indexOf item = Int.ofNat i := by simp [DeviceVector.indexOf, h]
    rw [hidx]
    constructor
    · intro hlt
      exact absurd hlt (not_lt.mpr (Int.ofNat_nonneg i))
    · intro hall
      rw [← findEqIdx_none_iff] at hall
      rw [hall] at h
      cases h

theorem findEqIdx_congr {A B : DeviceDescriptor}
    (h : ∀ x : DeviceDescriptor, x.equals (some A) = x.equals (some B))
    (l : List DeviceDescriptor) : findEqIdx A l = findEqIdx B l := by
  induction l with
  | nil => rfl
  | cons d rest ih => simp only [findEqIdx, h d, ih]

theorem findEqIdx_eraseIdx (item : DeviceDescriptor) (l : List DeviceDescriptor) :
    ∀ i : Nat, findEqIdx item l = some i →
      l.eraseIdx i = l.eraseP (fun d => d.equals (some item)) := by
  induction l with
  | nil => intro i h; cases h
  | cons d rest ih =>
    intro i h
    by_cases hd : d.equals (some item) = true
    · simp only [findEqIdx, hd, if_true] at h
      cases h
      simp [List.eraseIdx_cons_zero, List.eraseP_cons, hd]
    · rw [Bool.not_eq_true] at hd
      simp only [findEqIdx, hd, Bool.false_eq_true, if_false,
        Option.map_eq_some'] at h
      obtain ⟨j, hj, hji⟩ := h
      subst hji
      simp [List.eraseIdx_cons_succ, List.eraseP_cons, hd, ih j hj]

theorem removeOne_devices (dv : DeviceVector) (item : DeviceDescriptor) :
    (dv.removeOne item).1.devices =
      dv.devices.eraseP (fun d => d.equals (some item)) := by
  cases h : findEqIdx item dv.devices with
  | none =>
    have hro : dv.removeOne item = (dv, -1) := by
      simp [DeviceVector.removeOne, DeviceVector.indexOf, h]
    rw [hro]
    symm
    apply List.eraseP_of_forall_not
    intro a ha
    rw [(findEqIdx_none_iff item dv.devices).1 h a ha]
    simp
  | some i =>
    have hro : (dv.removeOne item).1.devices = dv.devices.eraseIdx i := by
      simp [DeviceVector.removeOne, DeviceVector.indexOf, h,
        DeviceVector.refreshTypes, not_lt.mpr (Int.ofNat_nonneg i)]
    rw [hro]
    exact findEqIdx_eraseIdx item dv.devices i h

theorem sortedInsert_ne_nil (item : DeviceDescriptor) (l : List DeviceDescriptor) :
    sortedInsert item l ≠ [] := by
  cases l with
  | nil => simp [sortedInsert]
  | cons e rest =>
    simp only [sortedInsert]
    by_cases h1 : do_compare e item > 0
    · simp [h1]
    · by_cases h2 : (do_compare e item == 0) = true
      · simp [h1, h2]
      · simp [h1, h2]

theorem sot_sub_ne_zero {α : Type} [LT α] [DecidableRel ((· < ·) : α → α → Prop)]
    {x y : α} (hor : x < y ∨ y < x) (hnand : ¬(x < y ∧ y < x)) :
    strictly_order_type x y - strictly_order_type y x ≠ 0 := by
  unfold strictly_order_type
  rcases hor with h | h
  · rw [if_pos h, if_neg (fun hh => hnand ⟨h, hh⟩)]
    norm_num
  · rw [if_neg (fun hh => hnand ⟨hh, h⟩), if_pos h]
    norm_num

theorem do_compare_eq_zero {a b : DeviceDescriptor} (h : do_compare a b = 0) :
    a.ptrOrd = b.ptrOrd := by
  simp only [do_compare] at h
  by_cases h1 : a.mDeviceType = b.mDeviceType
  · rw [if_neg (by simp [h1])] at h
    by_cases h2 : ((a.mId != 0 || b.mId != 0) && a.mId != b.mId) = true
    · rw [if_pos h2] at h
      have hne : a.mId ≠ b.mId := by
        simp only [Bool.and_eq_true, bne_iff_ne] at h2
        exact h2.2
      exact absurd h (sot_sub_ne_zero hne.lt_or_lt (fun hh => lt_asymm hh.1 hh.2))
    · rw [if_neg h2] at h
      by_cases h3 : ((a.mAddress != "" || b.mAddress != "") && a.mAddress != b.mAddress) = true
      · rw [if_pos h3] at h
        have hne : a.mAddress ≠ b.mAddress := by
          simp only [Bool.and_eq_true, bne_iff_ne] at h3
          exact h3.2
        exact absurd h (sot_sub_ne_zero hne.lt_or_lt (fun hh => lt_asymm hh.1 hh.2))
      · rw [if_neg h3] at h
        by_cases h4 : a.ptrOrd < b.ptrOrd
        · rw [if_pos h4] at h
          exact absurd h (by norm_num)
        · rw [if_neg h4] at h
          by_cases h5 : b.ptrOrd < a.ptrOrd
          · rw [if_pos h5] at h
            exact absurd h (by norm_num)
          · omega
  · rw [if_pos (by simp [h1])] at h
    exact absurd h
      (sot_sub_ne_zero (Ne.symm h1).lt_or_lt (fun hh => lt_asymm hh.1 hh.2))

theorem mem_sortedInsert {item x : DeviceDescriptor} :
    ∀ l : List DeviceDescriptor, (∀ a ∈ l, do_compare a item ≠ 0) →
      (x ∈ sortedInsert item l ↔ x = item ∨ x ∈ l) := by
  intro l
  induction l with
  | nil =>
    intro _
    simp [sortedInsert]
  | cons e rest ih =>
    intro hne
    simp only [sortedInsert]
    by_cases h1 : do_compare e item > 0
    · rw [if_pos h1]
      simp only [List.mem_cons]
    · have h2 : ¬ (do_compare e item == 0) = true := by
        simp only [beq_iff_eq]
        exact hne e (List.mem_cons_self e rest)
      rw [if_neg h1, if_neg h2]
      simp only [List.mem_cons, ih (fun a ha => hne a (List.mem_cons_of_mem e ha))]
      tauto

theorem addOne_not_present {dv : DeviceVector} {item : DeviceDescriptor}
    (h : ∀ d ∈ dv.devices, d.equals (some item) = false) :
    (dv.addOne item).1 =
      DeviceVector.refreshTypes { dv with devices := sortedInsert item dv.devices } := by
  have hlt : dv.indexOf item < 0 := (indexOf_neg_iff dv item).2 h
  simp [DeviceVector.addOne, hlt]

theorem addOne_present {dv : DeviceVector} {item : DeviceDescriptor}
    (h : ¬ dv.indexOf item < 0) : dv.addOne item = (dv, -1) := by
  simp [DeviceVector.addOne, h]

theorem maskOk_refreshTypes (dv : DeviceVector) : maskOk dv.refreshTypes := rfl

theorem maskOk_addOne {dv : DeviceVector} (h : maskOk dv) (d : DeviceDescriptor) :
    maskOk (dv.addOne d).1 := by
  by_cases hlt : dv.indexOf d < 0
  · have : (dv.addOne d).1 =
        DeviceVector.refreshTypes { dv with devices := sortedInsert d dv.devices } := by
      simp [DeviceVector.addOne, hlt]
    rw [this]
    exact maskOk_refreshTypes _
  · rw [addOne_present hlt]
    exact h

theorem maskOk_removeOne {dv : DeviceVector} (h : maskOk dv) (d : DeviceDescriptor) :
    maskOk (dv.removeOne d).1 := by
  cases hf : findEqIdx d dv.devices with
  | none =>
    have hro : dv.removeOne d = (dv, -1) := by
      simp [DeviceVector.removeOne, DeviceVector.indexOf, hf]
    rw [hro]
    exact h
  | some i =>
    have hro : (dv.removeOne d).1 =
        DeviceVector.refreshTypes { dv with devices := dv.devices.eraseIdx i } := by
      simp [DeviceVector.removeOne, DeviceVector.indexOf, hf,
        not_lt.mpr (Int.ofNat_nonneg i)]
    rw [hro]
    exact maskOk_refreshTypes _

theorem addAll_go_true (l : List DeviceDescriptor) :
    ∀ x : DeviceVector × Bool, x.2 = true → (l.foldl addStep x).2 = true := by
  induction l with
  | nil =>
    intro x hx
    simpa using hx
  | cons d rest ih =>
    intro x hx
    simp only [List.foldl_cons]
    apply ih
    unfold addStep
    by_cases h : x.1.indexOf d < 0
    · simp [h]
    · simp [h, hx]

theorem addAll_go_false (l : List DeviceDescriptor) :
    ∀ x : DeviceVector × Bool, (l.foldl addStep x).2 = false → l.foldl addStep x = x := by
  induction l with
  | nil =>
    intro x _
    rfl
  | cons d rest ih =>
    intro x hfold
    simp only [List.foldl_cons] at hfold ⊢
    by_cases h : x.1.indexOf d < 0
    · exfalso
      have htrue : (rest.foldl addStep (addStep x d)).2 = true := by
        apply addAll_go_true
        simp [addStep, h]
      rw [hfold] at htrue
      cases htrue
    · have hstep : addStep x d = x := by simp [addStep, h]
      rw [hstep] at hfold ⊢
      exact ih x hfold

theorem maskOk_addAll {dv : DeviceVector} (h : maskOk dv) (ds : DeviceVector) :
    maskOk (dv.addAll ds) := by
  simp only [DeviceVector.addAll]
  cases hr : (ds.devices.foldl addStep (dv, false)).2 with
  | true =>
    rw [if_pos rfl]
    exact maskOk_refreshTypes _
  | false =>
    rw [if_neg Bool.false_ne_true]
    rw [addAll_go_false ds.devices (dv, false) hr]
    exact h

theorem maskOk_removeAll_go (l : List DeviceDescriptor) :
    ∀ dv : DeviceVector, maskOk dv → maskOk (l.foldl rmStep dv) := by
  induction l with
  | nil =>
    intro dv h
    exact h
  | cons d rest ih =>
    intro dv h
    simp only [List.foldl_cons]
    exact ih _ (maskOk_removeOne h d)

theorem maskOk_removeAll {dv : DeviceVector} (h : maskOk dv) (ds : DeviceVector) :
    maskOk (dv.removeAll ds) := maskOk_removeAll_go ds.devices dv h

/-- C1: for every collection reachable by any sequence of single or bulk
add and remove operations, the cached aggregate device-type mask equals
the bitwise-OR of the current members' role-masks (which is
`AUDIO_DEVICE_NONE` for the empty collection, since `typesOf` folds from
`AUDIO_DEVICE_NONE`). -/
theorem aggregate_mask_invariant (dv : DeviceVector) (h : Reachable dv) :
    dv.mDeviceTypes = typesOf dv.devices := by
  induction h with
  | empty => rfl
  | addOne d _ ih => exact maskOk_addOne ih d
  | addAll ds _ ih => exact maskOk_addAll ih ds
  | removeOne d _ ih => exact maskOk_removeOne ih d
  | removeAll ds _ ih => exact maskOk_removeAll ih ds

/-- Witness for C1: the invariant instantiated at the concrete reachable
two-Speaker collection. -/
theorem aggregate_mask_invariant_witness :
    dvScenario3.mDeviceTypes = typesOf dvScenario3.devices :=
  aggregate_mask_invariant dvScenario3
    (Reachable.addOne dSpk9 (Reachable.addOne dSpk5 Reachable.empty))

/-- C6: `equals` is symmetric, reflexive on (non-null) records, and never
true against a null argument. -/
theorem equals_symm_refl_null (A B : DeviceDescriptor) :
    A.equals (some B) = B.equals (some A) ∧ A.equals (some A) = true ∧
      A.equals none = false :=
  ⟨equals_symmB A B, equals_refl A, rfl⟩

/-- C5: adding a record when an identity-equal member is present fails
with `-1` and returns the collection unchanged; removing a record when no
identity-equal member is present fails with `-1` and returns the
collection unchanged. -/
theorem add_remove_failure_frame (dv : DeviceVector) (item : DeviceDescriptor) :
    ((∃ d ∈ dv.devices, d.equals (some item) = true) → dv.addOne item = (dv, -1)) ∧
      ((∀ d ∈ dv.devices, d.equals (some item) = false) →
        dv.removeOne item = (dv, -1)) := by
  constructor
  · rintro ⟨d, hd, hde⟩
    apply addOne_present
    rw [indexOf_neg_iff]
    intro hall
    rw [hall d hd] at hde
    cases hde
  · intro hall
    have hf : findEqIdx item dv.devices = none :=
      (findEqIdx_none_iff item dv.devices).2 hall
    simp [DeviceVector.removeOne, DeviceVector.indexOf, hf]

/-- Witness for C5 at the two-Speaker collection: adding a record
identity-equal to a member fails and leaves the state; removing an absent
record fails and leaves the state. -/
theorem add_remove_failure_frame_witness :
    dvScenario3.addOne dSpk5dup = (dvScenario3, -1) ∧
      dvScenario3.removeOne dHdmiA = (dvScenario3, -1) :=
  ⟨(add_remove_failure_frame dvScenario3 dSpk5dup).1 (by decide),
    (add_remove_failure_frame dvScenario3 dHdmiA).2 (by decide)⟩

/-- C9: an HDMI-output record constructed with no declared encoded
formats receives exactly the fallback formats AC3 and IEC61937, supports
AC3, and reports no current encoded format until a non-sentinel format
has been negotiated. -/
theorem hdmi_fallback_formats (tagName : String) (p : Nat) :
    (DeviceDescriptor.make AUDIO_DEVICE_OUT_HDMI [] tagName p).mEncodedFormats =
        [AUDIO_FORMAT_AC3, AUDIO_FORMAT_IEC61937] ∧
      (DeviceDescriptor.make AUDIO_DEVICE_OUT_HDMI [] tagName p).supportsFormat
          AUDIO_FORMAT_AC3 = true ∧
      (DeviceDescriptor.make AUDIO_DEVICE_OUT_HDMI [] tagName
          p).hasCurrentEncodedFormat = false ∧
      ∀ f : Nat, f ≠ AUDIO_FORMAT_DEFAULT →
        ({ DeviceDescriptor.make AUDIO_DEVICE_OUT_HDMI [] tagName p with
            mCurrentEncodedFormat := f } :
              DeviceDescriptor).hasCurrentEncodedFormat = true := by
  have hcap : device_has_encoding_capability AUDIO_DEVICE_OUT_HDMI = true := by decide
  refine ⟨rfl, rfl, ?_, ?_⟩
  · simp [DeviceDescriptor.hasCurrentEncodedFormat, DeviceDescriptor.make, hcap]
  · intro f hf
    have hf0 : f ≠ 0 := hf
    simp [DeviceDescriptor.hasCurrentEncodedFormat, DeviceDescriptor.make, hcap,
      AUDIO_FORMAT_DEFAULT, hf0]

/-- Witness for C9: negotiating AC3 on the fallback HDMI record makes
`hasCurrentEncodedFormat` true. -/
theorem hdmi_fallback_formats_witness :
    ({ DeviceDescriptor.make AUDIO_DEVICE_OUT_HDMI [] "hdmi0" 7 with
        mCurrentEncodedFormat := AUDIO_FORMAT_AC3 } :
          DeviceDescriptor).hasCurrentEncodedFormat = true :=
  (hdmi_fallback_formats "hdmi0" 7).2.2.2 AUDIO_FORMAT_AC3 (by decide)

theorem addOne_reject_iff (dv : DeviceVector) (item : DeviceDescriptor) :
    dv.addOne item = (dv, -1) ↔ ¬ dv.indexOf item < 0 := by
  constructor
  · intro hEq hc
    have h2 := congrArg Prod.snd hEq
    simp [DeviceVector.addOne, hc] at h2
  · intro hc
    exact addOne_present hc

/-- C10: two records agreeing on role-mask, address, and
supported-encoded-formats as sets are identity-equal regardless of any
other field; `indexOf`, `remove`, `contains` (hence `filter`), and the
accept/reject decision of `add` cannot distinguish them. -/
theorem equals_ignores_nonidentity (A B : DeviceDescriptor)
    (ht : A.mDeviceType = B.mDeviceType) (ha : A.mAddress = B.mAddress)
    (hf : checkEqual A.mEncodedFormats B.mEncodedFormats = true) :
    A.equals (some B) = true ∧
      (∀ x : DeviceDescriptor, x.equals (some A) = x.equals (some B)) ∧
      ∀ dv : DeviceVector,
        dv.indexOf A = dv.indexOf B ∧ dv.removeOne A = dv.removeOne B ∧
          dv.containsDev A = dv.containsDev B ∧
          (dv.addOne A = (dv, -1) ↔ dv.addOne B = (dv, -1)) := by
  have hAB : A.equals (some B) = true := by
    rw [equals_true_iff]
    exact ⟨ht, ha, fun x => ((checkEqual_true_iff _ _).1 hf) x⟩
  have hcong : ∀ x : DeviceDescriptor, x.equals (some A) = x.equals (some B) :=
    equals_congr hAB
  have hidx : ∀ dv : DeviceVector, dv.indexOf A = dv.indexOf B := by
    intro dv
    unfold DeviceVector.indexOf
    rw [findEqIdx_congr hcong dv.devices]
  refine ⟨hAB, hcong, fun dv => ⟨hidx dv, ?_, ?_, ?_⟩⟩
  · unfold DeviceVector.removeOne
    rw [hidx dv]
  · unfold DeviceVector.containsDev
    rw [hidx dv]
  · rw [addOne_reject_iff, addOne_reject_iff, hidx dv]

/-- Witness for C10: `dSpk5` and `dSpk5dup` differ in id, tag name and
module yet are identity-equal and indistinguishable to `indexOf` and
`remove`. -/
theorem equals_ignores_nonidentity_witness :
    dSpk5.equals (some dSpk5dup) = true ∧
      dvScenario3.indexOf dSpk5 = dvScenario3.indexOf dSpk5dup ∧
      dvScenario3.removeOne dSpk5 = dvScenario3.removeOne dSpk5dup :=
  ⟨(equals_ignores_nonidentity dSpk5 dSpk5dup rfl rfl (by decide)).1,
    ((equals_ignores_nonidentity dSpk5 dSpk5dup rfl rfl (by decide)).2.2
      dvScenario3).1,
    ((equals_ignores_nonidentity dSpk5 dSpk5dup rfl rfl (by decide)).2.2
      dvScenario3).2.1⟩

/-- Counterexample for C3: in the two-Speaker scenario (id 5 with empty
address added first, id 9 with address "X" added later), the collection
sorts with the id-9 device first, yet
`getFirstExistingDevice([Speaker])` returns the id-5 device, not the
id-9 device. -/
theorem getFirstExistingDevice_scenario_cex :
    dvScenario3.devices = [dSpk9, dSpk5] ∧
      dvScenario3.getFirstExistingDevice [AUDIO_DEVICE_OUT_SPEAKER] = some dSpk5 ∧
      dvScenario3.getFirstExistingDevice [AUDIO_DEVICE_OUT_SPEAKER] ≠ some dSpk9 ∧
      dSpk5.mId = 5 ∧ dSpk9.mId = 9 := by decide

/-- C3 (amended): on the two-Speaker scenario collection,
`getFirstExistingDevice([Speaker])` returns the id-5 device: the id-9
device sorts first and matches, but the search runs on past it (its
address "X" is not an exact match for the empty query address) and the
id-5 device's exact empty-address match short-circuits the loop, so the
id-5 device is the result. -/
theorem getFirstExistingDevice_scenario_amended :
    dvScenario3.getFirstExistingDevice [AUDIO_DEVICE_OUT_SPEAKER] = some dSpk5 := by
  decide

/-- Counterexample for C4: a single bulk-remove call on the two-member
scenario collection triggers the mask refresh twice — once per removed
element, not once at the end — and the call does mutate the
collection. -/
theorem bulk_remove_refresh_count_cex :
    (dvScenario3.removeAllC dvScenario3).2 = 2 ∧
      (dvScenario3.removeAllC dvScenario3).1 ≠ dvScenario3 := by decide

theorem addOneC_fst (dv : DeviceVector) (d : DeviceDescriptor) :
    (dv.addOneC d).1 = (dv.addOne d).1 := by
  by_cases h : dv.indexOf d < 0 <;>
    simp [DeviceVector.addOneC, DeviceVector.addOne, h]

theorem removeOneC_fst (dv : DeviceVector) (d : DeviceDescriptor) :
    (dv.removeOneC d).1 = (dv.removeOne d).1 := by
  by_cases h : dv.indexOf d < 0 <;>
    simp [DeviceVector.removeOneC, DeviceVector.removeOne, h]

theorem addAllC_fst (dv ds : DeviceVector) : (dv.addAllC ds).1 = dv.addAll ds := by
  simp only [DeviceVector.addAllC, DeviceVector.addAll]
  cases h : (ds.devices.foldl addStep (dv, false)).2 <;> simp [h]

theorem removeAllC_go (l : List DeviceDescriptor) :
    ∀ p : DeviceVector × Nat,
      (l.foldl rmStepC p).1 = l.foldl rmStep p.1 ∧
        (l.foldl rmStepC p).2 ≤ p.2 + l.length := by
  induction l with
  | nil =>
    intro p
    exact ⟨rfl, by simp⟩
  | cons d rest ih =>
    intro p
    simp only [List.foldl_cons]
    obtain ⟨ih1, ih2⟩ := ih (rmStepC p d)
    constructor
    · rw [ih1]
      congr 1
      exact removeOneC_fst p.1 d
    · refine le_trans ih2 ?_
      have hstep2 : (rmStepC p d).2 ≤ p.2 + 1 := by
        by_cases h : p.1.indexOf d < 0 <;>
          simp [rmStepC, DeviceVector.removeOneC, h]
      simp only [List.length_cons]
      omega

theorem specSelect_cons_exact {d : DeviceDescriptor} {address : String}
    (qs : List DeviceDescriptor) (acc : Option DeviceDescriptor)
    (h : (d.mAddress == address) = true) :
    specSelect (d :: qs) address acc = some d := by
  simp [specSelect, h]

theorem specSelect_cons_notexact {d : DeviceDescriptor} {address : String}
    (qs : List DeviceDescriptor) (acc : Option DeviceDescriptor)
    (h : (d.mAddress == address) = false) :
    specSelect (d :: qs) address acc = specSelect qs address (some d) := by
  have hfc : List.find? (fun x : DeviceDescriptor => x.mAddress == address) (d :: qs)
      = List.find? (fun x : DeviceDescriptor => x.mAddress == address) qs :=
    List.find?_cons_of_neg qs (by simp [h])
  simp only [specSelect, hfc]
  cases hfind : List.find? (fun x : DeviceDescriptor => x.mAddress == address) qs with
  | some x => rfl
  | none =>
    cases qs with
    | nil => rfl
    | cons y ys =>
      simp only [List.getLast?_cons_cons]
      cases hl : (y :: ys).getLast? with
      | some x => rfl
      | none => simp at hl

theorem getDeviceLoop_cons_skip {ty : Nat} {address : String} {format : Nat}
    {d : DeviceDescriptor} {rest : List DeviceDescriptor}
    {acc : Option DeviceDescriptor}
    (hq : qualifiesQ ty address format d = false) :
    getDeviceLoop ty address format (d :: rest) acc =
      getDeviceLoop ty address format rest acc := by
  by_cases h1 : (d.mDeviceType == ty) = true
  · have h2 : (((address == "" || d.mAddress == address) &&
        format == AUDIO_FORMAT_DEFAULT) ||
          (d.supportsFormat format && format != AUDIO_FORMAT_DEFAULT)) = false := by
      by_contra hc
      rw [Bool.not_eq_false] at hc
      simp only [qualifiesQ, h1, hc] at hq
      cases hq
    simp [getDeviceLoop, h1, h2]
  · rw [Bool.not_eq_true] at h1
    simp [getDeviceLoop, h1]

theorem getDeviceLoop_cons_exact {ty : Nat} {address : String} {format : Nat}
    {d : DeviceDescriptor} {rest : List DeviceDescriptor}
    {acc : Option DeviceDescriptor}
    (hq : qualifiesQ ty address format d = true)
    (h3 : (d.mAddress == address) = true) :
    getDeviceLoop ty address format (d :: rest) acc = some d := by
  simp only [qualifiesQ, Bool.and_eq_true] at hq
  simp only [getDeviceLoop]
  rw [if_pos hq.1, if_pos hq.2, if_pos h3]

theorem getDeviceLoop_cons_carry {ty : Nat} {address : String} {format : Nat}
    {d : DeviceDescriptor} {rest : List DeviceDescriptor}
    {acc : Option DeviceDescriptor}
    (hq : qualifiesQ ty address format d = true)
    (h3 : (d.mAddress == address) = false) :
    getDeviceLoop ty address format (d :: rest) acc =
      getDeviceLoop ty address format rest (some d) := by
  simp only [qualifiesQ, Bool.and_eq_true] at hq
  simp only [getDeviceLoop]
  rw [if_pos hq.1, if_pos hq.2, if_neg (by simp [h3])]

theorem getDeviceLoop_eq (ty : Nat) (address : String) (format : Nat)
    (l : List DeviceDescriptor) :
    ∀ acc : Option DeviceDescriptor,
      getDeviceLoop ty address format l acc =
        specSelect (l.filter (qualifiesQ ty address format)) address acc := by
  induction l with
  | nil =>
    intro acc
    rfl
  | cons d rest ih =>
    intro acc
    by_cases hq : qualifiesQ ty address format d = true
    · rw [List.filter_cons_of_pos hq]
      by_cases h3 : (d.mAddress == address) = true
      · rw [getDeviceLoop_cons_exact hq h3, specSelect_cons_exact _ _ h3]
      · rw [Bool.not_eq_true] at h3
        rw [getDeviceLoop_cons_carry hq h3, specSelect_cons_notexact _ _ h3,
          ih (some d)]
    · rw [Bool.not_eq_true] at hq
      rw [List.filter_cons_of_neg (by simp [hq]), getDeviceLoop_cons_skip hq,
        ih acc]

/-- C2 (amended): `getDevice` returns the first member in sort order that
both qualifies and matches the query address exactly; when no qualifying
member matches the address exactly, it returns the last qualifying member
in sort order (the result variable is overwritten by each qualifying
member and only an exact address match breaks the loop); it returns none
when no member qualifies. -/
theorem getDevice_characterization (dv : DeviceVector) (ty : Nat)
    (address : String) (format : Nat) :
    dv.getDevice ty address format = getDeviceSpec dv ty address format := by
  show getDeviceLoop ty address format dv.devices none = _
  rw [getDeviceLoop_eq]
  simp only [getDeviceSpec, specSelect]
  cases hfind : (dv.devices.filter (qualifiesQ ty address format)).find?
      (fun d => d.mAddress == address) with
  | some x => rfl
  | none =>
    cases hl : (dv.devices.filter (qualifiesQ ty address format)).getLast? with
    | some x => rfl
    | none => rfl

/-- Counterexample for C2: on the two-HDMI collection, both members
qualify for the query (HDMI, address "Z", format AC3) and neither
address matches "Z" exactly, yet `getDevice` returns `dHdmiA`, the last
qualifying member in sort order — not the first qualifying member
`dHdmiB`. -/
theorem getDevice_not_first_cex :
    dvScenario2.devices = [dHdmiB, dHdmiA] ∧
      qualifiesQ AUDIO_DEVICE_OUT_HDMI "Z" AUDIO_FORMAT_AC3 dHdmiB = true ∧
      qualifiesQ AUDIO_DEVICE_OUT_HDMI "Z" AUDIO_FORMAT_AC3 dHdmiA = true ∧
      dvScenario2.getDevice AUDIO_DEVICE_OUT_HDMI "Z" AUDIO_FORMAT_AC3 =
        some dHdmiA ∧
      dHdmiA ≠ dHdmiB := by decide

theorem do_compare_ne_zero_of_ptr {a b : DeviceDescriptor}
    (h : a.ptrOrd ≠ b.ptrOrd) : do_compare a b ≠ 0 :=
  fun hc => h (do_compare_eq_zero hc)

theorem tmFold_mem (isOutputB : Bool) (ty2 : Nat) (l : List DeviceDescriptor) :
    ∀ acc : DeviceVector,
      NoDupEquals l → DistinctPtrs l →
      (∀ a ∈ acc.devices, ∀ b ∈ l, a.equals (some b) = false) →
      (∀ a ∈ acc.devices, ∀ b ∈ l, a.ptrOrd ≠ b.ptrOrd) →
      ∀ x : DeviceDescriptor,
        x ∈ (l.foldl (tmStep isOutputB ty2) acc).devices ↔
          x ∈ acc.devices ∨
            (x ∈ l ∧ ((audio_is_output_devices x.mDeviceType == isOutputB)
              && (ty2 &&& stripBitIn x.mDeviceType != 0)) = true) := by
  induction l with
  | nil =>
    intro acc _ _ _ _ x
    simp
  | cons d rest ih =>
    intro acc hnd hdp hae hap x
    obtain ⟨hndhead, hnd'⟩ := List.pairwise_cons.1 hnd
    obtain ⟨hdphead, hdp'⟩ := List.pairwise_cons.1 hdp
    simp only [List.foldl_cons]
    by_cases hP : ((audio_is_output_devices d.mDeviceType == isOutputB)
        && (ty2 &&& stripBitIn d.mDeviceType != 0)) = true
    · have hstep : tmStep isOutputB ty2 acc d = (acc.addOne d).1 := by
        simp [tmStep, hP]
      have hnotpres : ∀ a ∈ acc.devices, a.equals (some d) = false := fun a ha =>
        hae a ha d (List.mem_cons_self d rest)
      have hdevs : (acc.addOne d).1.devices = sortedInsert d acc.devices := by
        rw [addOne_not_present hnotpres]
        rfl
      have hmemins : ∀ y : DeviceDescriptor,
          y ∈ sortedInsert d acc.devices ↔ y = d ∨ y ∈ acc.devices := by
        intro y
        apply mem_sortedInsert
        intro a ha
        exact do_compare_ne_zero_of_ptr (hap a ha d (List.mem_cons_self d rest))
      have hae' : ∀ a ∈ (acc.addOne d).1.devices, ∀ b ∈ rest,
          a.equals (some b) = false := by
        intro a ha b hb
        rw [hdevs] at ha
        rcases (hmemins a).1 ha with rfl | ha2
        · exact hndhead b hb
        · exact hae a ha2 b (List.mem_cons_of_mem d hb)
      have hap' : ∀ a ∈ (acc.addOne d).1.devices, ∀ b ∈ rest,
          a.ptrOrd ≠ b.ptrOrd := by
        intro a ha b hb
        rw [hdevs] at ha
        rcases (hmemins a).1 ha with rfl | ha2
        · exact hdphead b hb
        · exact hap a ha2 b (List.mem_cons_of_mem d hb)
      rw [hstep, ih ((acc.addOne d).1) hnd' hdp' hae' hap' x]
      constructor
      · rintro (hxacc | ⟨hxr, hxP⟩)
        · rw [hdevs] at hxacc
          rcases (hmemins x).1 hxacc with rfl | hxacc2
          · exact Or.inr ⟨List.mem_cons_self _ _, hP⟩
          · exact Or.inl hxacc2
        · exact Or.inr ⟨List.mem_cons_of_mem _ hxr, hxP⟩
      · rintro (hxacc | ⟨hxc, hxP⟩)
        · refine Or.inl ?_
          rw [hdevs]
          exact (hmemins x).2 (Or.inr hxacc)
        · rcases List.mem_cons.1 hxc with rfl | hxr
          · refine Or.inl ?_
            rw [hdevs]
            exact (hmemins x).2 (Or.inl rfl)
          · exact Or.inr ⟨hxr, hxP⟩
    · have hstep : tmStep isOutputB ty2 acc d = acc := by
        simp [tmStep, hP]
      have hae' : ∀ a ∈ acc.devices, ∀ b ∈ rest, a.equals (some b) = false :=
        fun a ha b hb => hae a ha b (List.mem_cons_of_mem d hb)
      have hap' : ∀ a ∈ acc.devices, ∀ b ∈ rest, a.ptrOrd ≠ b.ptrOrd :=
        fun a ha b hb => hap a ha b (List.mem_cons_of_mem d hb)
      rw [hstep, ih acc hnd' hdp' hae' hap' x]
      constructor
      · rintro (hxacc | ⟨hxr, hxP⟩)
        · exact Or.inl hxacc
        · exact Or.inr ⟨List.mem_cons_of_mem _ hxr, hxP⟩
      · rintro (hxacc | ⟨hxc, hxP⟩)
        · exact Or.inl hxacc
        · rcases List.mem_cons.1 hxc with rfl | hxr
          · exact absurd hxP hP
          · exact Or.inr ⟨hxr, hxP⟩

theorem mem_getDevicesFromTypeMask (dv : DeviceVector) (ty : Nat)
    (x : DeviceDescriptor) (h1 : NoDupEquals dv.devices)
    (h2 : DistinctPtrs dv.devices) :
    x ∈ (dv.getDevicesFromTypeMask ty).devices ↔
      x ∈ dv.devices ∧
        audio_is_output_devices x.mDeviceType = audio_is_output_devices ty ∧
        stripBitIn ty &&& stripBitIn x.mDeviceType ≠ 0 := by
  simp only [DeviceVector.getDevicesFromTypeMask]
  by_cases h0 : (stripBitIn ty == AUDIO_DEVICE_NONE) = true
  · rw [if_pos h0]
    simp only [beq_iff_eq, AUDIO_DEVICE_NONE] at h0
    rw [h0]
    simp [emptyDV, Nat.zero_and]
  · rw [if_neg h0]
    rw [tmFold_mem (audio_is_output_devices ty) (stripBitIn ty) dv.devices emptyDV
      h1 h2 (by intro a ha; cases ha) (by intro a ha; cases ha) x]
    simp only [emptyDV, List.not_mem_nil, false_or, Bool.and_eq_true, beq_iff_eq,
      bne_iff_ne, ne_eq, and_assoc]

theorem NoDupEquals_removeOne {dv : DeviceVector} (h : NoDupEquals dv.devices)
    (r : DeviceDescriptor) : NoDupEquals (dv.removeOne r).1.devices := by
  rw [removeOne_devices]
  exact List.Pairwise.sublist (List.eraseP_sublist _) h

theorem mem_eraseP_equals {l : List DeviceDescriptor} (h : NoDupEquals l)
    (r x : DeviceDescriptor) :
    x ∈ l.eraseP (fun d => d.equals (some r)) ↔
      x ∈ l ∧ x.equals (some r) = false := by
  induction l with
  | nil => simp
  | cons a rest ih =>
    obtain ⟨hhead, htail⟩ := List.pairwise_cons.1 h
    by_cases ha : a.equals (some r) = true
    · simp only [List.eraseP_cons, ha, cond_true]
      constructor
      · intro hx
        refine ⟨List.mem_cons_of_mem _ hx, ?_⟩
        by_contra hc
        rw [Bool.not_eq_false] at hc
        have hax : a.equals (some x) = true := equals_trans ha (equals_symm_of hc)
        rw [hhead x hx] at hax
        cases hax
      · rintro ⟨hx, hxf⟩
        rcases List.mem_cons.1 hx with rfl | hxr
        · rw [ha] at hxf
          cases hxf
        · exact hxr
    · rw [Bool.not_eq_true] at ha
      simp only [List.eraseP_cons, ha, cond_false]
      simp only [List.mem_cons, ih htail]
      constructor
      · rintro (rfl | ⟨hxr, hxf⟩)
        · exact ⟨Or.inl rfl, ha⟩
        · exact ⟨Or.inr hxr, hxf⟩
      · rintro ⟨rfl | hxr, hxf⟩
        · exact Or.inl rfl
        · exact Or.inr ⟨hxr, hxf⟩

theorem mem_removeOne {dv : DeviceVector} (h : NoDupEquals dv.devices)
    (r x : DeviceDescriptor) :
    x ∈ (dv.removeOne r).1.devices ↔
      x ∈ dv.devices ∧ x.equals (some r) = false := by
  rw [removeOne_devices]
  exact mem_eraseP_equals h r x

theorem mem_removeAll_go (rl : List DeviceDescriptor) :
    ∀ dv : DeviceVector, NoDupEquals dv.devices →
      ∀ x : DeviceDescriptor,
        x ∈ (rl.foldl rmStep dv).devices ↔
          x ∈ dv.devices ∧ ∀ r ∈ rl, x.equals (some r) = false := by
  induction rl with
  | nil =>
    intro dv _ x
    simp
  | cons r rs ih =>
    intro dv h x
    simp only [List.foldl_cons]
    have hacc : rmStep dv r = (dv.removeOne r).1 := rfl
    rw [hacc, ih ((dv.removeOne r).1) (NoDupEquals_removeOne h r) x,
      mem_removeOne h r x]
    constructor
    · rintro ⟨⟨hxd, hxr⟩, hall⟩
      refine ⟨hxd, ?_⟩
      intro q hq
      rcases List.mem_cons.1 hq with rfl | hq2
      · exact hxr
      · exact hall q hq2
    · rintro ⟨hxd, hall⟩
      exact ⟨⟨hxd, hall r (List.mem_cons_self r rs)⟩,
        fun q hq => hall q (List.mem_cons_of_mem r hq)⟩

theorem mem_removeAll {dv : DeviceVector} (h : NoDupEquals dv.devices)
    (rs : DeviceVector) (x : DeviceDescriptor) :
    x ∈ (dv.removeAll rs).devices ↔
      x ∈ dv.devices ∧ ∀ r ∈ rs.devices, x.equals (some r) = false :=
  mem_removeAll_go rs.devices dv h x

theorem tmFold_nil_iff (isOutputB : Bool) (ty2 : Nat) (l : List DeviceDescriptor) :
    ∀ acc : DeviceVector,
      (l.foldl (tmStep isOutputB ty2) acc).devices = [] ↔
        (acc.devices = [] ∧ ∀ d ∈ l,
          ((audio_is_output_devices d.mDeviceType == isOutputB)
            && (ty2 &&& stripBitIn d.mDeviceType != 0)) = false) := by
  induction l with
  | nil =>
    intro acc
    simp
  | cons d rest ih =>
    intro acc
    simp only [List.foldl_cons]
    by_cases hP : ((audio_is_output_devices d.mDeviceType == isOutputB)
        && (ty2 &&& stripBitIn d.mDeviceType != 0)) = true
    · have hstep : tmStep isOutputB ty2 acc d = (acc.addOne d).1 := by
        simp [tmStep, hP]
      have hne : (acc.addOne d).1.devices ≠ [] := by
        by_cases hidx : acc.indexOf d < 0
        · rw [addOne_not_present ((indexOf_neg_iff acc d).1 hidx)]
          exact sortedInsert_ne_nil d acc.devices
        · have hnonempty : acc.devices ≠ [] := by
            intro hemp
            apply hidx
            rw [indexOf_neg_iff]
            intro a haa
            rw [hemp] at haa
            cases haa
          rw [addOne_present hidx]
          exact hnonempty
      rw [hstep, ih ((acc.addOne d).1)]
      constructor
      · rintro ⟨hnil, _⟩
        exact absurd hnil hne
      · rintro ⟨_, hall⟩
        have hcontra := hall d (List.mem_cons_self d rest)
        simp [hP] at hcontra
    · have hstep : tmStep isOutputB ty2 acc d = acc := by
        simp [tmStep, hP]
      rw [hstep, ih acc]
      rw [Bool.not_eq_true] at hP
      constructor
      · rintro ⟨hnil, hall⟩
        refine ⟨hnil, ?_⟩
        intro q hq
        rcases List.mem_cons.1 hq with rfl | hq2
        · exact hP
        · exact hall q hq2
      · rintro ⟨hnil, hall⟩
        exact ⟨hnil, fun q hq => hall q (List.mem_cons_of_mem d hq)⟩

theorem gdftm_ne_nil_iff (dv : DeviceVector) (ty : Nat) :
    (dv.getDevicesFromTypeMask ty).devices ≠ [] ↔
      ∃ d ∈ dv.devices,
        audio_is_output_devices d.mDeviceType = audio_is_output_devices ty ∧
          stripBitIn ty &&& stripBitIn d.mDeviceType ≠ 0 := by
  simp only [DeviceVector.getDevicesFromTypeMask]
  by_cases h0 : (stripBitIn ty == AUDIO_DEVICE_NONE) = true
  · rw [if_pos h0]
    simp only [beq_iff_eq, AUDIO_DEVICE_NONE] at h0
    constructor
    · intro hne
      exact absurd rfl hne
    · rintro ⟨d, _, _, hint⟩
      rw [h0, Nat.zero_and] at hint
      exact absurd rfl hint
  · rw [if_neg h0]
    constructor
    · intro hne
      by_contra hno
      apply hne
      rw [tmFold_nil_iff]
      refine ⟨rfl, ?_⟩
      intro d hd
      by_contra hPc
      rw [Bool.not_eq_false] at hPc
      apply hno
      refine ⟨d, hd, ?_⟩
      simp only [Bool.and_eq_true, beq_iff_eq, bne_iff_ne] at hPc
      exact ⟨hPc.1, hPc.2⟩
    · rintro ⟨d, hd, hdir, hint⟩ hnil
      rw [tmFold_nil_iff] at hnil
      have hfalse := hnil.2 d hd
      have hP : ((audio_is_output_devices d.mDeviceType ==
          audio_is_output_devices ty)
            && (stripBitIn ty &&& stripBitIn d.mDeviceType != 0)) = true := by
        simp only [Bool.and_eq_true, beq_iff_eq, bne_iff_ne]
        exact ⟨hdir, hint⟩
      rw [hP] at hfalse
      cases hfalse

/-- C7: `getDevicesFromTypeMask(mask)` keeps exactly the members whose
input/output direction equals the direction of the query mask and whose
role-mask, with the direction bit stripped from both sides, intersects
the stripped query mask. -/
theorem getDevicesFromTypeMask_exact (dv : DeviceVector) (ty : Nat)
    (x : DeviceDescriptor) (h1 : NoDupEquals dv.devices)
    (h2 : DistinctPtrs dv.devices) :
    x ∈ (dv.getDevicesFromTypeMask ty).devices ↔
      x ∈ dv.devices ∧
        audio_is_output_devices x.mDeviceType = audio_is_output_devices ty ∧
        stripBitIn ty &&& stripBitIn x.mDeviceType ≠ 0 :=
  mem_getDevicesFromTypeMask dv ty x h1 h2

/-- Witness for C7: evaluated on the two-Speaker collection with the
Speaker query mask and the id-5 member. -/
theorem getDevicesFromTypeMask_exact_witness :
    dSpk5 ∈ (dvScenario3.getDevicesFromTypeMask AUDIO_DEVICE_OUT_SPEAKER).devices ↔
      (dSpk5 ∈ dvScenario3.devices ∧
        audio_is_output_devices dSpk5.mDeviceType =
          audio_is_output_devices AUDIO_DEVICE_OUT_SPEAKER ∧
        stripBitIn AUDIO_DEVICE_OUT_SPEAKER &&& stripBitIn dSpk5.mDeviceType ≠ 0) :=
  getDevicesFromTypeMask_exact dvScenario3 AUDIO_DEVICE_OUT_SPEAKER dSpk5
    (by decide) (by decide)

/-- C8: `replaceDevicesByType` leaves the collection entirely unchanged
when it has no member matching the role mask or when the replacements are
empty; otherwise it is exactly the compound bulk-remove of the matching
members followed by the bulk-add of the replacements, and (under the
collection invariants) every matching member is gone after the removal
phase. -/
theorem replaceDevicesByType_spec (dv : DeviceVector) (t : Nat)
    (adds : DeviceVector) :
    (((dv.getDevicesFromTypeMask t).devices = [] ∨ adds.devices = []) →
        dv.replaceDevicesByType t adds = dv) ∧
      ((dv.getDevicesFromTypeMask t).devices ≠ [] → adds.devices ≠ [] →
        dv.replaceDevicesByType t adds =
          (dv.removeAll (dv.getDevicesFromTypeMask t)).addAll adds) ∧
      ((dv.getDevicesFromTypeMask t).devices ≠ [] ↔
        ∃ d ∈ dv.devices,
          audio_is_output_devices d.mDeviceType = audio_is_output_devices t ∧
            stripBitIn t &&& stripBitIn d.mDeviceType ≠ 0) ∧
      (NoDupEquals dv.devices → DistinctPtrs dv.devices →
        ∀ d ∈ dv.devices,
          audio_is_output_devices d.mDeviceType = audio_is_output_devices t →
          stripBitIn t &&& stripBitIn d.mDeviceType ≠ 0 →
          d ∉ (dv.removeAll (dv.getDevicesFromTypeMask t)).devices) := by
  refine ⟨?_, ?_, gdftm_ne_nil_iff dv t, ?_⟩
  · intro hcase
    simp only [DeviceVector.replaceDevicesByType]
    rw [if_neg]
    rcases hcase with hnil | hnil <;> simp [hnil]
  · intro hr ha
    simp only [DeviceVector.replaceDevicesByType]
    rw [if_pos]
    simp only [Bool.and_eq_true, Bool.not_eq_true']
    constructor
    · exact List.isEmpty_eq_false.2 hr
    · exact List.isEmpty_eq_false.2 ha
  · intro hnd hdp d hd hdir hint hmem
    rw [mem_removeAll hnd _ d] at hmem
    have hdin : d ∈ (dv.getDevicesFromTypeMask t).devices :=
      (mem_getDevicesFromTypeMask dv t d hnd hdp).2 ⟨hd, hdir, hint⟩
    have hcontra := hmem.2 d hdin
    rw [equals_refl d] at hcontra
    cases hcontra

/-- Witness for C8: replacing by the HDMI mask on the all-Speaker
collection is a no-op though the replacements are non-empty; and after
the removal phase of a Speaker replacement the id-5 Speaker member is
gone. -/
theorem replaceDevicesByType_spec_witness :
    dvScenario3.replaceDevicesByType AUDIO_DEVICE_OUT_HDMI dvScenario2 =
        dvScenario3 ∧
      dSpk5 ∉ (dvScenario3.removeAll
        (dvScenario3.getDevicesFromTypeMask AUDIO_DEVICE_OUT_SPEAKER)).devices :=
  ⟨(replaceDevicesByType_spec dvScenario3 AUDIO_DEVICE_OUT_HDMI dvScenario2).1
      (Or.inl (by decide)),
    (replaceDevicesByType_spec dvScenario3 AUDIO_DEVICE_OUT_SPEAKER
        dvScenario2).2.2.2 (by decide) (by decide) dSpk5 (by decide) (by decide)
      (by decide)⟩

theorem length_sortedInsert {item : DeviceDescriptor} :
    ∀ l : List DeviceDescriptor, (∀ a ∈ l, do_compare a item ≠ 0) →
      (sortedInsert item l).length = l.length + 1 := by
  intro l
  induction l with
  | nil =>
    intro _
    rfl
  | cons e rest ih =>
    intro h
    simp only [sortedInsert]
    by_cases h1 : do_compare e item > 0
    · rw [if_pos h1]
      simp [List.length_cons]
    · have h2 : ¬ (do_compare e item == 0) = true := by
        simp only [beq_iff_eq]
        exact h e (List.mem_cons_self e rest)
      rw [if_neg h1, if_neg h2]
      simp only [List.length_cons, ih (fun a ha => h a (List.mem_cons_of_mem e ha))]

theorem addAll_go_exact (U : List DeviceDescriptor)
    (hU : ∀ a ∈ U, ∀ b ∈ U, a.ptrOrd = b.ptrOrd → a = b) :
    ∀ (l : List DeviceDescriptor) (p : DeviceVector × Bool),
      (∀ a ∈ p.1.devices, a ∈ U) → (∀ b ∈ l, b ∈ U) →
      (∀ a ∈ (l.foldl addStep p).1.devices, a ∈ U) ∧
        p.1.devices.length ≤ (l.foldl addStep p).1.devices.length ∧
        ((l.foldl addStep p).2 = p.2 ∨
          p.1.devices.length < (l.foldl addStep p).1.devices.length) := by
  intro l
  induction l with
  | nil =>
    intro p hacc _
    exact ⟨hacc, le_refl _, Or.inl rfl⟩
  | cons d rest ih =>
    intro p hacc hl
    simp only [List.foldl_cons]
    by_cases hidx : p.1.indexOf d < 0
    · have hdU : d ∈ U := hl d (List.mem_cons_self d rest)
      have hnotpres : ∀ a ∈ p.1.devices, a.equals (some d) = false :=
        (indexOf_neg_iff p.1 d).1 hidx
      have hcmp : ∀ a ∈ p.1.devices, do_compare a d ≠ 0 := by
        intro a ha hc
        have heq : a = d := hU a (hacc a ha) d hdU (do_compare_eq_zero hc)
        have hfalse := hnotpres a ha
        rw [heq, equals_refl] at hfalse
        cases hfalse
      have hstep : addStep p d =
          ({ p.1 with devices := sortedInsert d p.1.devices }, true) := by
        simp [addStep, hidx]
      rw [hstep]
      have hlen : (sortedInsert d p.1.devices).length = p.1.devices.length + 1 :=
        length_sortedInsert p.1.devices hcmp
      have hmem' : ∀ a ∈ sortedInsert d p.1.devices, a ∈ U := by
        intro a ha
        rcases (mem_sortedInsert p.1.devices hcmp).1 ha with rfl | ha2
        · exact hdU
        · exact hacc a ha2
      obtain ⟨c1, c2, c3⟩ :=
        ih ({ p.1 with devices := sortedInsert d p.1.devices }, true) hmem'
          (fun b hb => hl b (List.mem_cons_of_mem d hb))
      refine ⟨c1, ?_, Or.inr ?_⟩
      · calc p.1.devices.length ≤ p.1.devices.length + 1 := Nat.le_succ _
          _ = (sortedInsert d p.1.devices).length := hlen.symm
          _ ≤ _ := c2
      · calc p.1.devices.length < p.1.devices.length + 1 := Nat.lt_succ_self _
          _ = (sortedInsert d p.1.devices).length := hlen.symm
          _ ≤ _ := c2
    · have hstep : addStep p d = p := by simp [addStep, hidx]
      rw [hstep]
      exact ih p hacc (fun b hb => hl b (List.mem_cons_of_mem d hb))

theorem addAllC_count_exact (dv ds : DeviceVector)
    (hp : ∀ a ∈ dv.devices ++ ds.devices, ∀ b ∈ dv.devices ++ ds.devices,
      a.ptrOrd = b.ptrOrd → a = b) :
    (dv.addAllC ds).2 = if dv.addAll ds = dv then 0 else 1 := by
  simp only [DeviceVector.addAllC]
  cases hr : (ds.devices.foldl addStep (dv, false)).2 with
  | false =>
    rw [if_neg Bool.false_ne_true]
    have hfold := addAll_go_false ds.devices (dv, false) hr
    have heq : dv.addAll ds = dv := by
      simp only [DeviceVector.addAll]
      rw [hr, if_neg Bool.false_ne_true, hfold]
    rw [if_pos heq]
  | true =>
    rw [if_pos rfl]
    have hne : dv.addAll ds ≠ dv := by
      obtain ⟨-, -, hdisj⟩ := addAll_go_exact (dv.devices ++ ds.devices) hp
        ds.devices (dv, false) (fun a ha => List.mem_append_left _ ha)
        (fun b hb => List.mem_append_right _ hb)
      rcases hdisj with hflag | hlt
      · rw [hr] at hflag
        simp at hflag
      · have hlt' : dv.devices.length <
            (ds.devices.foldl addStep (dv, false)).1.devices.length := hlt
        intro hcontra
        have haddall : dv.addAll ds =
            (ds.devices.foldl addStep (dv, false)).1.refreshTypes := by
          simp only [DeviceVector.addAll]
          rw [hr, if_pos rfl]
        rw [haddall] at hcontra
        have hdev := congrArg DeviceVector.devices hcontra
        simp only [DeviceVector.refreshTypes] at hdev
        rw [hdev] at hlt'
        exact lt_irrefl _ hlt'
    rw [if_neg hne]

theorem removeOneC_count (dv : DeviceVector) (r : DeviceDescriptor) :
    (dv.removeOneC r).2 =
      if ∃ x ∈ dv.devices, x.equals (some r) = true then 1 else 0 := by
  by_cases h : dv.indexOf r < 0
  · have hne : ¬ ∃ x ∈ dv.devices, x.equals (some r) = true := by
      rw [indexOf_neg_iff] at h
      rintro ⟨x, hx, hxe⟩
      rw [h x hx] at hxe
      cases hxe
    rw [if_neg hne]
    simp [DeviceVector.removeOneC, h]
  · have hex : ∃ x ∈ dv.devices, x.equals (some r) = true := by
      by_contra hno
      apply h
      rw [indexOf_neg_iff]
      intro x hx
      by_contra hc
      rw [Bool.not_eq_false] at hc
      exact hno ⟨x, hx, hc⟩
    rw [if_pos hex]
    simp [DeviceVector.removeOneC, h]

theorem removeOneC_devices (dv : DeviceVector) (r : DeviceDescriptor) :
    (dv.removeOneC r).1.devices =
      dv.devices.eraseP (fun d => d.equals (some r)) := by
  rw [removeOneC_fst, removeOne_devices]

theorem remove_count_step (r : DeviceDescriptor) (q : DeviceDescriptor → Bool) :
    ∀ l : List DeviceDescriptor, NoDupEquals l →
      (l.filter (fun x => x.equals (some r) || q x)).length =
        (if ∃ x ∈ l, x.equals (some r) = true then 1 else 0) +
          ((l.eraseP (fun x => x.equals (some r))).filter q).length := by
  intro l
  induction l with
  | nil =>
    intro _
    rw [if_neg]
    · rfl
    · rintro ⟨x, hx, -⟩
      cases hx
  | cons a tl ih =>
    intro h
    obtain ⟨hhead, htail⟩ := List.pairwise_cons.1 h
    by_cases ha : a.equals (some r) = true
    · rw [List.filter_cons_of_pos (by simp [ha])]
      simp only [List.eraseP_cons, ha, cond_true]
      rw [if_pos ⟨a, List.mem_cons_self a tl, ha⟩]
      have hcongr : ∀ x ∈ tl, (x.equals (some r) || q x) = q x := by
        intro x hx
        have hpx : x.equals (some r) = false := by
          by_contra hc
          rw [Bool.not_eq_false] at hc
          have hax : a.equals (some x) = true := equals_trans ha (equals_symm_of hc)
          rw [hhead x hx] at hax
          cases hax
        rw [hpx, Bool.false_or]
      rw [List.filter_congr hcongr]
      simp only [List.length_cons]
      omega
    · rw [Bool.not_eq_true] at ha
      simp only [List.eraseP_cons, ha, cond_false]
      have hex : (∃ x ∈ a :: tl, x.equals (some r) = true) ↔
          (∃ x ∈ tl, x.equals (some r) = true) := by
        constructor
        · rintro ⟨x, hx, hxe⟩
          rcases List.mem_cons.1 hx with rfl | hx2
          · rw [ha] at hxe
            cases hxe
          · exact ⟨x, hx2, hxe⟩
        · rintro ⟨x, hx2, hxe⟩
          exact ⟨x, List.mem_cons_of_mem a hx2, hxe⟩
      by_cases hqa : q a = true
      · rw [List.filter_cons_of_pos (by simp [ha, hqa]),
          List.filter_cons_of_pos hqa]
        simp only [hex, List.length_cons]
        rw [ih htail]
        omega
      · rw [Bool.not_eq_true] at hqa
        rw [List.filter_cons_of_neg (by simp [ha, hqa]),
          List.filter_cons_of_neg (by simp [hqa])]
        simp only [hex]
        rw [ih htail]

theorem eraseP_equals_length (r : DeviceDescriptor) :
    ∀ l : List DeviceDescriptor, NoDupEquals l →
      (if ∃ x ∈ l, x.equals (some r) = true then 1 else 0) +
          (l.eraseP (fun x => x.equals (some r))).length = l.length := by
  intro l
  induction l with
  | nil =>
    intro _
    rw [if_neg]
    · rfl
    · rintro ⟨x, hx, -⟩
      cases hx
  | cons a tl ih =>
    intro h
    obtain ⟨hhead, htail⟩ := List.pairwise_cons.1 h
    by_cases ha : a.equals (some r) = true
    · simp only [List.eraseP_cons, ha, cond_true]
      rw [if_pos ⟨a, List.mem_cons_self a tl, ha⟩]
      simp only [List.length_cons]
      omega
    · rw [Bool.not_eq_true] at ha
      simp only [List.eraseP_cons, ha, cond_false]
      have hex : (∃ x ∈ a :: tl, x.equals (some r) = true) ↔
          (∃ x ∈ tl, x.equals (some r) = true) := by
        constructor
        · rintro ⟨x, hx, hxe⟩
          rcases List.mem_cons.1 hx with rfl | hx2
          · rw [ha] at hxe
            cases hxe
          · exact ⟨x, hx2, hxe⟩
        · rintro ⟨x, hx2, hxe⟩
          exact ⟨x, List.mem_cons_of_mem a hx2, hxe⟩
      simp only [hex, List.length_cons]
      have hih := ih htail
      omega

theorem removeAllC_exact_go (rl : List DeviceDescriptor) :
    ∀ (dv : DeviceVector) (c : Nat), NoDupEquals dv.devices →
      (rl.foldl rmStepC (dv, c)).2 =
          c + (dv.devices.filter
            (fun x => rl.any (fun r => x.equals (some r)))).length ∧
        (rl.foldl rmStepC (dv, c)).2 + (rl.foldl rmStep dv).devices.length =
          c + dv.devices.length := by
  induction rl with
  | nil =>
    intro dv c h
    constructor
    · simp
    · simp
  | cons r rs ih =>
    intro dv c h
    simp only [List.foldl_cons]
    have hstep : rmStepC (dv, c) r =
        ((dv.removeOneC r).1, c + (dv.removeOneC r).2) := rfl
    have hstep2 : rmStep dv r = (dv.removeOneC r).1 := by
      rw [removeOneC_fst]
      rfl
    rw [hstep, hstep2]
    have hnd' : NoDupEquals (dv.removeOneC r).1.devices := by
      rw [removeOneC_fst]
      exact NoDupEquals_removeOne h r
    obtain ⟨ih1, ih2⟩ := ih ((dv.removeOneC r).1) (c + (dv.removeOneC r).2) hnd'
    have hcnt := removeOneC_count dv r
    have hkey := remove_count_step r (fun x => rs.any (fun s => x.equals (some s)))
      dv.devices h
    have hlen := eraseP_equals_length r dv.devices h
    have hdev := removeOneC_devices dv r
    have hfiltcongr : dv.devices.filter
        (fun x => (r :: rs).any (fun s => x.equals (some s))) =
        dv.devices.filter
          (fun x => x.equals (some r) || rs.any (fun s => x.equals (some s))) := by
      apply List.filter_congr
      intro x _
      simp [List.any_cons]
    constructor
    · rw [ih1, hdev, hfiltcongr, hkey, hcnt]
      omega
    · rw [ih2, hdev, hcnt]
      omega

/-- C4 (amended): every single add, single remove, and bulk add triggers
the mask refresh at most once per call — exactly once when the call
mutates the membership and zero times otherwise — while bulk remove
triggers exactly one refresh per member actually removed (the members
identity-matched by some element of the argument), not once at the end;
and no operation ever leaves the cached mask stale.  The counted
operations agree with the uncounted ones; the bulk-add exactness holds
under pointer-injectivity (a heap address determines the record) and the
bulk-remove exactness under the collection's no-duplicate invariant,
with the accounting identity refresh-count + remaining-size =
original-size. -/
theorem refresh_count_amended (dv : DeviceVector) (d : DeviceDescriptor)
    (ds : DeviceVector) :
    (dv.addOneC d).1 = (dv.addOne d).1 ∧
      (dv.removeOneC d).1 = (dv.removeOne d).1 ∧
      (dv.addAllC ds).1 = dv.addAll ds ∧
      (dv.removeAllC ds).1 = dv.removeAll ds ∧
      (dv.addOneC d).2 ≤ 1 ∧ (dv.removeOneC d).2 ≤ 1 ∧ (dv.addAllC ds).2 ≤ 1 ∧
      (dv.removeAllC ds).2 ≤ ds.devices.length ∧
      (dv.indexOf d < 0 → (dv.addOneC d).2 = 1 ∧ (dv.removeOneC d).2 = 0) ∧
      (¬ dv.indexOf d < 0 → (dv.addOneC d).2 = 0 ∧ (dv.removeOneC d).2 = 1) ∧
      (maskOk dv →
        maskOk (dv.addOne d).1 ∧ maskOk (dv.removeOne d).1 ∧
          maskOk (dv.addAll ds) ∧ maskOk (dv.removeAll ds)) ∧
      ((∀ a ∈ dv.devices ++ ds.devices, ∀ b ∈ dv.devices ++ ds.devices,
          a.ptrOrd = b.ptrOrd → a = b) →
        (dv.addAllC ds).2 = if dv.addAll ds = dv then 0 else 1) ∧
      (NoDupEquals dv.devices →
        (dv.removeAllC ds).2 =
            (dv.devices.filter
              (fun x => ds.devices.any (fun r => x.equals (some r)))).length ∧
          (dv.removeAllC ds).2 + (dv.removeAll ds).devices.length =
            dv.devices.length) := by
  refine ⟨addOneC_fst dv d, removeOneC_fst dv d, addAllC_fst dv ds,
    (removeAllC_go ds.devices (dv, 0)).1, ?_, ?_, ?_, ?_, ?_, ?_, ?_, ?_, ?_⟩
  · by_cases h : dv.indexOf d < 0 <;> simp [DeviceVector.addOneC, h]
  · by_cases h : dv.indexOf d < 0 <;> simp [DeviceVector.removeOneC, h]
  · simp only [DeviceVector.addAllC]
    cases h : (ds.devices.foldl addStep (dv, false)).2 <;> simp [h]
  · have := (removeAllC_go ds.devices (dv, 0)).2
    simpa using this
  · intro h
    simp [DeviceVector.addOneC, DeviceVector.removeOneC, h]
  · intro h
    simp [DeviceVector.addOneC, DeviceVector.removeOneC, h]
  · intro h
    exact ⟨maskOk_addOne h d, maskOk_removeOne h d, maskOk_addAll h ds,
      maskOk_removeAll h ds⟩
  · intro hp
    exact addAllC_count_exact dv ds hp
  · intro hnd
    constructor
    · have h1 := (removeAllC_exact_go ds.devices dv 0 hnd).1
      simpa [DeviceVector.removeAllC] using h1
    · have h2 := (removeAllC_exact_go ds.devices dv 0 hnd).2
      simpa [DeviceVector.removeAllC, DeviceVector.removeAll] using h2

/-- Witness for C4 (amended) at the concrete scenario collections: the
bulk-remove count is bounded by the argument length; bulk remove leaves
the mask in sync; the bulk-add count is exactly the mutation indicator;
and the bulk-remove count is exactly the number of members matched by
the argument. -/
theorem refresh_count_amended_witness :
    (dvScenario3.removeAllC dvScenario3).2 ≤ dvScenario3.devices.length ∧
      maskOk (dvScenario3.removeAll dvScenario3) ∧
      (dvScenario3.addAllC dvScenario2).2 =
        (if dvScenario3.addAll dvScenario2 = dvScenario3 then 0 else 1) ∧
      (dvScenario3.removeAllC dvScenario3).2 =
        (dvScenario3.devices.filter
          (fun x => dvScenario3.devices.any (fun r => x.equals (some r)))).length :=
  ⟨(refresh_count_amended dvScenario3 dSpk5 dvScenario3).2.2.2.2.2.2.2.1,
    ((refresh_count_amended dvScenario3 dSpk5
        dvScenario3).2.2.2.2.2.2.2.2.2.2.1 (by decide)).2.2.2,
    (refresh_count_amended dvScenario3 dSpk5
        dvScenario2).2.2.2.2.2.2.2.2.2.2.2.1 (by decide),
    ((refresh_count_amended dvScenario3 dSpk5
        dvScenario3).2.2.2.2.2.2.2.2.2.2.2.2 (by decide)).1⟩

end AudioPolicy
